import Mathlib

/-!
Verification development for the financial-table extraction scripts
(`financialsmarttool.py`, `cleantablenow.py`, `tablefromraw.py`,
`rawprocessor.py`).  The Python functions are shallowly embedded as
executable Lean definitions over `List Char` / `String`; Python floats are
modelled as exact rationals (`ℚ`): every decimal literal the scripts feed
to `float()` is parsed exactly, and the unit conversions (`/10000`, `/100`,
`*1e3/1e6/1e9`) are exact in `ℚ`.  Non-finite float inputs (`inf`, `nan`)
and underscore digit separators are outside the rational model and parse to
`none`; no claim exercises them.
-/

/-- ASCII digit test, modelling `\d` / `str.isdigit` on the ASCII inputs the
scripts handle. -/
def pyIsDigit (c : Char) : Bool := decide ('0' ≤ c) && decide (c ≤ '9')

/-- ASCII letter test, modelling `str.isalpha` on ASCII input. -/
def pyIsAlpha (c : Char) : Bool :=
  (decide ('a' ≤ c) && decide (c ≤ 'z')) || (decide ('A' ≤ c) && decide (c ≤ 'Z'))

/-- Python `\s` / `str.strip` whitespace: space, tab, newline, carriage
return, vertical tab (11), form feed (12). -/
def pyIsSpace (c : Char) : Bool :=
  c = ' ' || c = '\t' || c = '\n' || c = '\r' || c.toNat = 11 || c.toNat = 12

/-- ASCII lower-casing, modelling `str.lower` on the ASCII inputs used. -/
def pyToLower (c : Char) : Char :=
  if decide ('A' ≤ c) && decide (c ≤ 'Z') then Char.ofNat (c.toNat + 32) else c

/-- `str.strip()` on a character list. -/
def stripChars (l : List Char) : List Char :=
  ((l.dropWhile pyIsSpace).reverse.dropWhile pyIsSpace).reverse

/-- `str.strip()`. -/
def pyStrip (s : String) : String := String.mk (stripChars s.data)

/-- `str.lower()`. -/
def strLower (s : String) : String := String.mk (s.data.map pyToLower)

/-- `p` is an initial segment of `t` (used for substring search). -/
def leadsIn : List Char → List Char → Bool
  | [], _ => true
  | _ :: _, [] => false
  | p :: ps, t :: ts => p = t && leadsIn ps ts

/-- Python `needle in hay` substring test. -/
def hasSub (needle : List Char) : List Char → Bool
  | [] => needle.isEmpty
  | c :: t => leadsIn needle (c :: t) || hasSub needle t

/-- Python `str.replace(needle, repl)` (all occurrences, left to right,
non-overlapping), written with a structural fuel argument (one unit per
character consumed) so that it evaluates by kernel reduction; `needle` is
nonempty at every call site in the scripts, and the initial fuel
`hay.length` always suffices because each step consumes at least one
character. -/
def replaceAllF (needle repl : List Char) : ℕ → List Char → List Char
  | _, [] => []
  | 0, hay => hay
  | fuel + 1, c :: t =>
    if needle ≠ [] ∧ leadsIn needle (c :: t) then
      repl ++ replaceAllF needle repl fuel ((c :: t).drop needle.length)
    else
      c :: replaceAllF needle repl fuel t

/-- Python `str.replace(needle, repl)`. -/
def replaceAll (needle repl hay : List Char) : List Char :=
  replaceAllF needle repl hay.length hay

/-- `re.sub(r'[^\d\.\-]', '', s)`: keep only digits, `.` and `-`. -/
def keepNumChars (l : List Char) : List Char :=
  l.filter (fun c => pyIsDigit c || c = '.' || c = '-')

/-- Value of a digit string, most significant first. -/
def digitsVal (l : List Char) : ℕ :=
  l.foldl (fun a c => 10 * a + (c.toNat - 48)) 0

/-- An exact fraction (numerator, positive denominator).  Python floats are
modelled as exact rationals; all arithmetic on them is carried out on such
fractions (integer operations only) and converted to `ℚ` at the boundary by
`qOfFrac`, so that every value is kernel-computable. -/
abbrev Frac := ℤ × ℕ

/-- The rational value of a fraction. -/
def qOfFrac (p : Frac) : ℚ := Rat.divInt p.1 (p.2 : ℤ)

/-- Exponent part of a Python float literal: optional sign then digits.
Returns (well-formed, exponent, rest). -/
def parseExp (t : List Char) : Bool × ℤ × List Char :=
  let p : ℤ × List Char :=
    match t with
    | '+' :: u => (1, u)
    | '-' :: u => (-1, u)
    | _ => (1, t)
  let ds := p.2.takeWhile pyIsDigit
  let t2 := p.2.dropWhile pyIsDigit
  if ds.isEmpty then (false, 0, t2) else (true, p.1 * (digitsVal ds : ℤ), t2)

/-- Python `float(s)` modelled as an exact fraction: strip whitespace,
optional sign, digits with an optional fraction part (at least one digit in
total), optional exponent; anything else fails (`none`, modelling the
`ValueError` that the scripts catch).  Decimal literals are parsed exactly.
Non-finite inputs (`inf`, `nan`) and underscore separators are outside the
rational model and also yield `none`. -/
def pyFloatFrac (s : String) : Option Frac :=
  let cs := stripChars s.data
  let sp : ℤ × List Char :=
    match cs with
    | '+' :: t => (1, t)
    | '-' :: t => (-1, t)
    | _ => (1, cs)
  let ip := sp.2.takeWhile pyIsDigit
  let cs2 := sp.2.dropWhile pyIsDigit
  let fr : List Char × List Char :=
    match cs2 with
    | '.' :: t => (t.takeWhile pyIsDigit, t.dropWhile pyIsDigit)
    | _ => ([], cs2)
  if ip.isEmpty && fr.1.isEmpty then none
  else
    let ep : Bool × ℤ × List Char :=
      match fr.2 with
      | 'e' :: t => parseExp t
      | 'E' :: t => parseExp t
      | _ => (true, 0, fr.2)
    if ep.1 && ep.2.2.isEmpty then
      let num : ℤ := sp.1 * ((digitsVal ip * 10 ^ fr.1.length + digitsVal fr.1 : ℕ) : ℤ)
      let den : ℕ := 10 ^ fr.1.length
      some (if 0 ≤ ep.2.1 then (num * ((10 : ℤ) ^ ep.2.1.toNat), den)
            else (num, den * 10 ^ (-ep.2.1).toNat))
    else none

/-- Python `float(s)` as a rational. -/
def pyFloat (s : String) : Option ℚ := (pyFloatFrac s).map qOfFrac

/-- Sentinel tokens of `parse_value` (`financialsmarttool.py` line 281). -/
def SENTINELS : List String := [r"-", r"nm", r"n/m", r"na", r"n/a", r"n.a."]

/-- The string `bps`. -/
def bpsChars : List Char := "bps".data

/-- The string `%`. -/
def pctChars : List Char := "%".data

/-- `parse_value` from `financialsmarttool.py` (lines 277–321): sentinel
check, then `bps` (contains, on the lower-cased string), then `%`, then
parenthesis negation, `$`/`,` stripping, trailing `k`/`m`/`b` multiplier,
and a final float parse; every failure returns `(none, original)`. -/
def parse_value (value : String) : Option ℚ × String :=
  let original := pyStrip value
  let ol := strLower original
  if original = "" || SENTINELS.contains ol then (none, original)
  else if hasSub bpsChars ol.data then
    match pyFloatFrac (String.mk (keepNumChars (replaceAll bpsChars [] original.data))) with
    | some p => (some (qOfFrac (p.1, p.2 * 10000)), original)
    | none => (none, original)
  else if hasSub pctChars original.data then
    match pyFloatFrac (String.mk (keepNumChars (replaceAll pctChars [] original.data))) with
    | some p => (some (qOfFrac (p.1, p.2 * 100)), original)
    | none => (none, original)
  else
    let w0 := original.data
    let w1 :=
      if (match w0 with | '(' :: _ => true | _ => false)
          && (match w0.getLast? with | some ')' => true | _ => false) then
        '-' :: (w0.drop 1).dropLast
      else w0
    let w2 := w1.filter (fun c => !(c = '$' || c = ','))
    let mw : ℤ × List Char :=
      match w2.getLast? with
      | some c =>
        if pyToLower c = 'k' then (1000, w2.dropLast)
        else if pyToLower c = 'm' then (1000000, w2.dropLast)
        else if pyToLower c = 'b' then (1000000000, w2.dropLast)
        else (1, w2)
      | none => (1, w2)
    match pyFloatFrac (String.mk mw.2) with
    | some p => (some (qOfFrac (p.1 * mw.1, p.2)), original)
    | none => (none, original)

/-- `parse_numeric_value` from `cleantablenow.py` (lines 322–376): empty
input short-circuits to `(none, "")`; otherwise parenthesis negation runs
first, then `bps`, then `%`, then the `k`/`m`/`b` multiplier, then a
`[^\d.\-]` strip and the float parse.  The `pd.isna` guard is modelled by
the empty-string test (string inputs only). -/
def parse_numeric_value (value : String) : Option ℚ × String :=
  if value = "" then (none, "")
  else
    let original := pyStrip value
    let w0 := original.data
    let w1 :=
      if (match w0 with | '(' :: _ => true | _ => false)
          && (match w0.getLast? with | some ')' => true | _ => false) then
        '-' :: (w0.drop 1).dropLast
      else w0
    if hasSub bpsChars (w1.map pyToLower) then
      match pyFloatFrac (String.mk (keepNumChars (replaceAll bpsChars [] w1))) with
      | some p => (some (qOfFrac (p.1, p.2 * 10000)), original)
      | none => (none, original)
    else if hasSub pctChars w1 then
      match pyFloatFrac (String.mk (keepNumChars (replaceAll pctChars [] w1))) with
      | some p => (some (qOfFrac (p.1, p.2 * 100)), original)
      | none => (none, original)
    else
      let mw : ℤ × List Char :=
        match w1.getLast? with
        | some c =>
          if pyToLower c = 'k' then (1000, w1.dropLast)
          else if pyToLower c = 'm' then (1000000, w1.dropLast)
          else if pyToLower c = 'b' then (1000000000, w1.dropLast)
          else (1, w1)
        | none => (1, w1)
      let w2 := keepNumChars mw.2
      if w2.isEmpty || w2 = [Char.ofNat 45] then (none, original)
      else
        match pyFloatFrac (String.mk w2) with
        | some p => (some (qOfFrac (p.1 * mw.1, p.2)), original)
        | none => (none, original)

/-- The display string `(5)`. -/
def litParen5 : String := "(5)"

/-- The display string `(1,234.50)`. -/
def litParen1234 : String := "(1,234.50)"

/-- The display string `(3.4%)`. -/
def litParenPct : String := "(3.4%)"

/-- The display string `(2.1m)`. -/
def litParenM : String := "(2.1m)"

/-- The display string `3.4%`. -/
def litPct : String := "3.4%"

/-- The display string `120bps`. -/
def litBps : String := "120bps"

/-- The display string `120BPS`. -/
def litBpsUpper : String := "120BPS"

/-- The display string `2.1m`. -/
def litM : String := "2.1m"

/-- The display string `2.1M`. -/
def litMUpper : String := "2.1M"

/-- The display string `3k`. -/
def litK : String := "3k"

/-- The display string `4b`. -/
def litB : String := "4b"

/-- The display string `n/a`. -/
def litNA : String := "n/a"

/-- The display string `abc` (a non-numeric residue). -/
def litAbc : String := "abc"

/-- The display string `$1,000`. -/
def litDollar : String := "$1,000"

/-- Every branch of `parse_value` returns the stripped input as the display
component. -/
lemma parse_value_snd (s : String) : (parse_value s).2 = pyStrip s := by
  simp only [parse_value]
  repeat' split
  all_goals rfl

/-- Every branch of `parse_numeric_value` returns the stripped input as the
display component, except the empty-input guard which returns `""`. -/
lemma parse_numeric_value_snd (s : String) :
    (parse_numeric_value s).2 = if s = "" then "" else pyStrip s := by
  simp only [parse_numeric_value]
  repeat' split
  all_goals rfl

/-- C3 counterexample: the claim says a parenthesized value with a suffix
comes out negative, but `parse_value "(3.4%)"` returns `+0.034`
(`Rat.divInt 17 500`): the `%` branch of `parse_value` runs before the
parenthesis negation and strips the parentheses, losing the sign. -/
theorem parse_value_paren_pct_loses_sign :
    parse_value litParenPct = (some (Rat.divInt 17 500), litParenPct) ∧
      0 < Rat.divInt 17 500 := by
  exact ⟨by decide, by decide⟩

/-- C3 (amended): the value parsers treat a parenthesized display string as
negative before the `$`/comma stripping and the k/m/b multiplier —
`parse_value "(5)" = (-5, "(5)")`, `parse_value "(1,234.50)" =
(-1234.50, "(1,234.50)")`, `parse_value "(2.1m)" = (-2100000, "(2.1m)")` —
and in `parse_numeric_value` the negation also precedes the bps/% handling
(`parse_numeric_value "(3.4%)" = (-0.034, "(3.4%)")`); but in `parse_value`
the bps/% branches run before the parenthesis check, so a parenthesized
bps/% value comes out without the sign (`parse_value "(3.4%)" = (+0.034,
"(3.4%)")`). -/
theorem paren_negation_amended :
    parse_value litParen5 = (some (Rat.divInt (-5) 1), litParen5) ∧
      parse_value litParen1234 = (some (Rat.divInt (-2469) 2), litParen1234) ∧
      parse_value litParenM = (some (Rat.divInt (-2100000) 1), litParenM) ∧
      parse_numeric_value litParenPct = (some (Rat.divInt (-17) 500), litParenPct) ∧
      parse_numeric_value litParen5 = (some (Rat.divInt (-5) 1), litParen5) ∧
      parse_value litParenPct = (some (Rat.divInt 17 500), litParenPct) := by
  refine ⟨by decide, by decide, by decide, by decide, by decide, by decide⟩

/-- C4 (confirmed): `parse_value` applies the documented unit conversions —
a case-insensitive `bps` suffix divides by 10000 (`"120bps"` and `"120BPS"`
→ 0.012 = `Rat.divInt 3 250`), a `%` suffix divides by 100 (`"3.4%"` →
0.034 = `Rat.divInt 17 500`), and otherwise after stripping `$`/commas a
trailing case-insensitive k/m/b multiplies by 1e3/1e6/1e9 (`"3k"` → 3000,
`"2.1m"`/`"2.1M"` → 2100000, `"4b"` → 4e9, `"$1,000"` → 1000); the sentinel
`"n/a"` yields `(none, "n/a")`. -/
theorem parse_value_unit_conversions :
    parse_value litPct = (some (Rat.divInt 17 500), litPct) ∧
      parse_value litBps = (some (Rat.divInt 3 250), litBps) ∧
      parse_value litBpsUpper = (some (Rat.divInt 3 250), litBpsUpper) ∧
      parse_value litM = (some (Rat.divInt 2100000 1), litM) ∧
      parse_value litMUpper = (some (Rat.divInt 2100000 1), litMUpper) ∧
      parse_value litK = (some (Rat.divInt 3000 1), litK) ∧
      parse_value litB = (some (Rat.divInt 4000000000 1), litB) ∧
      parse_value litDollar = (some (Rat.divInt 1000 1), litDollar) ∧
      parse_value litNA = (none, litNA) := by
  refine ⟨by decide, by decide, by decide, by decide, by decide, by decide, by decide,
    by decide, by decide⟩

/-- C7 (confirmed): the value parsers are total — for every input string
they return a pair whose display component is exactly the code's
`original` (the stripped input; `parse_numeric_value` returns `""` for the
empty input), and a non-numeric residue degrades to a `none` numeric (e.g.
`parse_value "abc" = (none, "abc")`,
`parse_numeric_value "" = (none, "")`) instead of an error. -/
theorem value_parsers_total (s : String) :
    (parse_value s).2 = pyStrip s ∧
      (parse_numeric_value s).2 = (if s = "" then "" else pyStrip s) ∧
      parse_value litAbc = (none, litAbc) ∧
      parse_numeric_value (String.mk []) = (none, String.mk []) := by
  exact ⟨parse_value_snd s, parse_numeric_value_snd s, by decide, by decide⟩


/-- `group_into_tables_fast` from `tablefromraw.py` (lines 251–322): walking
the rows in their original order, a row opens a new table exactly when its
(Regular_Count, Consecutive_Count) pair differs from the previous row's
(pandas `shift`-comparison and `cumsum` of the change flags); otherwise it
joins the running table.  Rows are an arbitrary type `α`, the two counts
read off by `key`. -/
def group_into_tables_fast {α : Type} (key : α → ℕ × ℕ) : List α → List (List α)
  | [] => []
  | x :: xs =>
    match group_into_tables_fast key xs with
    | [] => [[x]]
    | [] :: rest => [x] :: [] :: rest
    | (y :: t) :: rest =>
      if key x = key y then (x :: y :: t) :: rest
      else [x] :: (y :: t) :: rest

/-- Concatenating the tables produced by `group_into_tables_fast` recovers
the input row sequence. -/
lemma group_join {α : Type} (key : α → ℕ × ℕ) (l : List α) :
    (group_into_tables_fast key l).join = l := by
  induction l with
  | nil => rfl
  | cons x xs ih =>
    unfold group_into_tables_fast
    cases h : group_into_tables_fast key xs with
    | nil =>
      rw [h] at ih
      simp at ih
      simp [ih]
    | cons t rest =>
      cases t with
      | nil =>
        rw [h] at ih
        simpa using ih
      | cons y t2 =>
        rw [h] at ih
        by_cases hk : key x = key y
        · simp only [hk, if_pos rfl]
          simpa using ih
        · simp only [if_neg hk]
          simpa using ih

/-- Every table produced by `group_into_tables_fast` is nonempty and its
rows all carry the same count pair. -/
lemma group_tables_const {α : Type} (key : α → ℕ × ℕ) (l : List α) :
    ∀ t ∈ group_into_tables_fast key l, t ≠ [] ∧ ∀ a ∈ t, ∀ b ∈ t, key a = key b := by
  induction l with
  | nil => intro t ht; cases ht
  | cons x xs ih =>
    intro t ht
    unfold group_into_tables_fast at ht
    cases h : group_into_tables_fast key xs with
    | nil =>
      rw [h] at ht
      simp at ht
      subst ht
      refine ⟨by simp, ?_⟩
      intro a ha b hb
      simp at ha hb
      rw [ha, hb]
    | cons t0 rest =>
      rw [h] at ht
      cases t0 with
      | nil =>
        simp only [List.mem_cons] at ht
        rcases ht with ht | ht | ht
        · subst ht
          refine ⟨by simp, ?_⟩
          intro a ha b hb
          simp at ha hb
          rw [ha, hb]
        · subst ht
          exact absurd rfl (ih [] (h ▸ List.mem_cons_self [] rest)).1
        · exact ih t (h ▸ List.mem_cons_of_mem [] ht)
      | cons y t2 =>
        dsimp only at ht
        by_cases hk : key x = key y
        · rw [if_pos hk] at ht
          simp only [List.mem_cons] at ht
          rcases ht with ht | ht
          · subst ht
            have hyc := ih (y :: t2) (h ▸ List.mem_cons_self (y :: t2) rest)
            refine ⟨by simp, ?_⟩
            intro a ha b hb
            simp only [List.mem_cons] at ha hb
            have key_all : ∀ c, c ∈ y :: t2 → key c = key y := by
              intro c hc
              exact hyc.2 c hc y (List.mem_cons_self y t2)
            rcases ha with ha | ha <;> rcases hb with hb | hb
            · rw [ha, hb]
            · rw [ha, hk, key_all b (List.mem_cons.mpr hb)]
            · rw [key_all a (List.mem_cons.mpr ha), ← hk, hb]
            · rw [key_all a (List.mem_cons.mpr ha), key_all b (List.mem_cons.mpr hb)]
          · exact ih t (h ▸ List.mem_cons_of_mem (y :: t2) ht)
        · rw [if_neg hk] at ht
          simp only [List.mem_cons] at ht
          rcases ht with ht | ht | ht
          · subst ht
            refine ⟨by simp, ?_⟩
            intro a ha b hb
            simp at ha hb
            rw [ha, hb]
          · subst ht
            exact ih (y :: t2) (h ▸ List.mem_cons_self (y :: t2) rest)
          · exact ih t (h ▸ List.mem_cons_of_mem (y :: t2) ht)

/-- Adjacent tables produced by `group_into_tables_fast` start with
different count pairs. -/
lemma group_chain {α : Type} (key : α → ℕ × ℕ) (l : List α) :
    List.Chain' (fun t u => (t.map key).head? ≠ (u.map key).head?)
      (group_into_tables_fast key l) := by
  induction l with
  | nil => exact List.chain'_nil
  | cons x xs ih =>
    unfold group_into_tables_fast
    cases h : group_into_tables_fast key xs with
    | nil => exact List.chain'_singleton [x]
    | cons t rest =>
      rw [h] at ih
      cases t with
      | nil =>
        refine List.chain'_cons.mpr ⟨?_, ih⟩
        simp
      | cons y t2 =>
        dsimp only
        by_cases hk : key x = key y
        · rw [if_pos hk]
          cases rest with
          | nil => exact List.chain'_singleton _
          | cons r rest2 =>
            have hpair := List.chain'_cons.mp ih
            refine List.chain'_cons.mpr ⟨?_, hpair.2⟩
            simpa [hk] using hpair.1
        · rw [if_neg hk]
          refine List.chain'_cons.mpr ⟨?_, ih⟩
          simpa using hk

/-- The count-pair sequence of the C6 scenario. -/
def exRecords : List (ℕ × ℕ) := [(3, 3), (3, 3), (2, 1), (2, 1), (2, 1)]

/-- C6 (confirmed): `group_into_tables_fast`, walking the records in
original order, starts a new table exactly when the count pair changes —
the concatenation of its tables is the input (no records lost or
duplicated), every table is nonempty with a constant count pair, adjacent
tables have different pairs, and the pair sequence
`[(3,3),(3,3),(2,1),(2,1),(2,1)]` yields exactly 2 tables of sizes
`[2, 3]`. -/
theorem table_grouper_runs {α : Type} (key : α → ℕ × ℕ) (l : List α) :
    (group_into_tables_fast key l).join = l ∧
      (∀ t ∈ group_into_tables_fast key l, t ≠ [] ∧ ∀ a ∈ t, ∀ b ∈ t, key a = key b) ∧
      List.Chain' (fun t u => (t.map key).head? ≠ (u.map key).head?)
        (group_into_tables_fast key l) ∧
      (group_into_tables_fast (fun p : ℕ × ℕ => p) exRecords).map List.length = [2, 3] :=
  ⟨group_join key l, group_tables_const key l, group_chain key l, by decide⟩

/-- Witness for C6: the theorem applied at the scenario records; the first
table of the grouping is `[(3,3),(3,3)]` and its two members share the
count pair. -/
theorem table_grouper_runs_witness :
    ([(3, 3), (3, 3)] : List (ℕ × ℕ)) ≠ [] ∧ ((3, 3) : ℕ × ℕ) = (3, 3) :=
  ⟨((table_grouper_runs (fun p : ℕ × ℕ => p) exRecords).2.1
      [(3, 3), (3, 3)] (by decide)).1,
    ((table_grouper_runs (fun p : ℕ × ℕ => p) exRecords).2.1
      [(3, 3), (3, 3)] (by decide)).2 (3, 3) (by decide) (3, 3) (by decide)⟩

/-- C8 (confirmed): `group_into_tables_fast` is idempotent — flattening its
output and grouping again reproduces the same partition. -/
theorem table_grouper_idempotent {α : Type} (key : α → ℕ × ℕ) (l : List α) :
    group_into_tables_fast key ((group_into_tables_fast key l).join) =
      group_into_tables_fast key l := by
  rw [group_join]

/-- Column naming from `create_structured_table_from_raw` in
`cleantablenow.py` (lines 263–270): checks count 3, then 4, then 2, then
falls back to `Value1..ValueN`. -/
def createColumnNames (most_common_count : ℕ) : List String :=
  if most_common_count = 3 then [r"Current", r"Prior", r"Change"]
  else if most_common_count = 4 then [r"Q1", r"Q2", r"Q3", r"Q4"]
  else if most_common_count = 2 then [r"Current", r"Prior"]
  else (List.range most_common_count).map (fun i => r"Value" ++ Nat.repr (i + 1))

/-- Column naming from `group_by_section_and_columns` in
`financialsmarttool.py` (lines 430–436): count 3 gets the hard-coded
quarter headers, count 2 gets Current/Prior, anything else
`Column_1..Column_N`. -/
def smartColumnNames (column_count : ℕ) : List String :=
  if column_count = 3 then [r"Q3 2025", r"Q3 2024", r"Change"]
  else if column_count = 2 then [r"Current", r"Prior"]
  else (List.range column_count).map (fun i => r"Column_" ++ Nat.repr (i + 1))

/-- Modelled from the claim's words: the fixed convention the spec states —
2 → Current/Prior; 3 → Current/Prior/Change; 4 → Q1..Q4; any other N →
Value1..ValueN. -/
def specColumnNames (n : ℕ) : List String :=
  if n = 2 then [r"Current", r"Prior"]
  else if n = 3 then [r"Current", r"Prior", r"Change"]
  else if n = 4 then [r"Q1", r"Q2", r"Q3", r"Q4"]
  else (List.range n).map (fun i => r"Value" ++ Nat.repr (i + 1))

/-- C9 counterexample: at column count 3 the cited
`group_by_section_and_columns` naming deviates from the claimed fixed
convention, producing `["Q3 2025", "Q3 2024", "Change"]` instead of
`["Current", "Prior", "Change"]`. -/
theorem smart_column_names_cex :
    smartColumnNames 3 ≠ specColumnNames 3 ∧
      smartColumnNames 3 = [r"Q3 2025", r"Q3 2024", r"Change"] ∧
      specColumnNames 3 = [r"Current", r"Prior", r"Change"] :=
  ⟨by decide, by decide, by decide⟩

/-- C9 (amended): `create_structured_table_from_raw` names value columns by
the determined count exactly per the stated convention (for every count);
`group_by_section_and_columns` shares only the 2-column naming and instead
uses `["Q3 2025", "Q3 2024", "Change"]` for 3 and `Column_1..Column_N`
otherwise (e.g. count 5). -/
theorem column_names_amended :
    (∀ n, createColumnNames n = specColumnNames n) ∧
      smartColumnNames 2 = specColumnNames 2 ∧
      smartColumnNames 3 = [r"Q3 2025", r"Q3 2024", r"Change"] ∧
      smartColumnNames 5 =
        [r"Column_1", r"Column_2", r"Column_3", r"Column_4", r"Column_5"] := by
  refine ⟨?_, by decide, by decide, by decide⟩
  intro n
  rcases Nat.lt_or_ge n 5 with h | h
  · interval_cases n <;> decide
  · have h2 : n ≠ 2 := by omega
    have h3 : n ≠ 3 := by omega
    have h4 : n ≠ 4 := by omega
    simp [createColumnNames, specColumnNames, h2, h3, h4]

/-- `filter_raw_extraction` from `rawprocessor.py` (lines 251–258): first
keep rows with `Regular_Count == Consecutive_Count`, then keep rows with
`Regular_Count > 2`.  Rows are an arbitrary type `α` with the two counts
read off by `reg` and `cons`. -/
def filter_raw_extraction {α : Type} (reg cons : α → ℕ) (l : List α) : List α :=
  (l.filter fun r => reg r == cons r).filter fun r => decide (2 < reg r)

/-- `simple_filter` from `rawprocessor.py` (lines 689–690): the one-mask
variant `(reg == cons) & (reg > 2)`. -/
def simple_filter {α : Type} (reg cons : α → ℕ) (l : List α) : List α :=
  l.filter fun r => (reg r == cons r) && decide (2 < reg r)

/-- C10 (confirmed): the evidence filter keeps exactly the rows whose
Regular_Count equals their Consecutive_Count and exceeds 2 — the two
source variants agree, the kept rows form an order-preserving sublist of
the input (rows unchanged), every kept row satisfies both conditions,
every input row satisfying both is kept, and every row with
Regular_Count ≤ 2 is removed even when its two counts are equal. -/
theorem evidence_filter_exact {α : Type} (reg cons : α → ℕ) (l : List α) :
    filter_raw_extraction reg cons l = simple_filter reg cons l ∧
      (filter_raw_extraction reg cons l).Sublist l ∧
      (∀ r ∈ filter_raw_extraction reg cons l, reg r = cons r ∧ 2 < reg r) ∧
      (∀ r ∈ l, reg r = cons r → 2 < reg r → r ∈ filter_raw_extraction reg cons l) ∧
      (∀ r, reg r ≤ 2 → r ∉ filter_raw_extraction reg cons l) := by
  refine ⟨?_, ?_, ?_, ?_, ?_⟩
  · simp [filter_raw_extraction, simple_filter, List.filter_filter, Bool.and_comm]
  · exact List.Sublist.trans (List.filter_sublist _) (List.filter_sublist _)
  · intro r hr
    simp only [filter_raw_extraction, List.mem_filter, beq_iff_eq, decide_eq_true_eq] at hr
    exact ⟨hr.1.2, hr.2⟩
  · intro r hr h1 h2
    simp only [filter_raw_extraction, List.mem_filter, beq_iff_eq, decide_eq_true_eq]
    exact ⟨⟨hr, h1⟩, h2⟩
  · intro r hle hmem
    simp only [filter_raw_extraction, List.mem_filter, decide_eq_true_eq] at hmem
    omega

/-- Witness for C10: the theorem applied to a concrete row list — the row
with counts (3,3) is kept. -/
theorem evidence_filter_exact_witness :
    ((3, 3) : ℕ × ℕ) ∈
      filter_raw_extraction Prod.fst Prod.snd [((3, 3) : ℕ × ℕ), (2, 2), (4, 1)] :=
  (evidence_filter_exact Prod.fst Prod.snd [((3, 3) : ℕ × ℕ), (2, 2), (4, 1)]).2.2.2.1
    (3, 3) (by decide) (by decide) (by decide)

/-- `EXCLUSION_PHRASES` from `financialsmarttool.py` (lines 44–64), in dict
insertion order: phrase → digit-strings excluded inside it. -/
def EXCLUSION_PHRASES : List (String × List String) :=
  [(r"tier 1", [r"1"]), (r"tier 2", [r"2"]), (r"tier 3", [r"3"]),
   (r"common equity tier 1", [r"1"]), (r"common equity tier 2", [r"2"]),
   (r"common equity tier 3", [r"3"]),
   (r"cet1", [r"1"]), (r"cet 1", [r"1"]),
   (r"level 1", [r"1"]), (r"level 2", [r"2"]), (r"level 3", [r"3"]),
   (r"q1", [r"1"]), (r"q2", [r"2"]), (r"q3", [r"3"]), (r"q4", [r"4"]),
   (r"quarter 1", [r"1"]), (r"quarter 2", [r"2"]), (r"quarter 3", [r"3"]),
   (r"quarter 4", [r"4"])]

/-- All start positions at which `pat` occurs in `text` (in increasing
order), modelling the `str.find` loop with `start = pos + 1` that records
every — possibly overlapping — occurrence. -/
def subPositions (pat text : List Char) : List ℕ :=
  (List.range (text.length + 1)).filter (fun i => leadsIn pat (text.drop i))

/-- The exclusion-phrase occurrences of a line: for each configured phrase,
each occurrence in the lower-cased text contributes
(start, end, digit-strings). -/
def exclusionMatches (cs : List Char) : List (ℕ × ℕ × List String) :=
  EXCLUSION_PHRASES.bind fun pr =>
    (subPositions pr.1.data (cs.map pyToLower)).map fun i =>
      (i, i + pr.1.data.length, pr.2)

/-- Match one optional literal character, returning (consumed, rest). -/
def optChar (c : Char) : List Char → ℕ × List Char
  | x :: t => if x = c then (1, t) else (0, x :: t)
  | [] => (0, [])

/-- Length of the number-token match of the regex
`\(?-?\$?\d[\d,]*(?:\.\d+)?\)?(?:\s*(?:bps|%|[kmb]))?` (IGNORECASE) at the
head of `s`, or `none`.  All quantifiers in this pattern are effectively
deterministic: each optional piece either matches greedily or cannot
contribute to a later alternative, so no backtracking is needed. -/
def matchNum (s : List Char) : Option ℕ :=
  let p1 := optChar '(' s
  let p2 := optChar '-' p1.2
  let p3 := optChar '$' p2.2
  match h : p3.2 with
  | c :: rest =>
    if pyIsDigit c then
      let digs := rest.takeWhile (fun d => pyIsDigit d || d = ',')
      let r2 := rest.dropWhile (fun d => pyIsDigit d || d = ',')
      let frac : ℕ × List Char :=
        match r2 with
        | '.' :: u =>
          if (match u with | d :: _ => pyIsDigit d | [] => false) then
            (1 + (u.takeWhile pyIsDigit).length, u.dropWhile pyIsDigit)
          else (0, r2)
        | _ => (0, r2)
      let p4 := optChar ')' frac.2
      let ws := p4.2.takeWhile pyIsSpace
      let r3 := p4.2.dropWhile pyIsSpace
      let suffixLen : ℕ :=
        if leadsIn bpsChars (r3.map pyToLower) then ws.length + 3
        else
          match r3 with
          | d :: _ =>
            if d = '%' then ws.length + 1
            else if pyToLower d = 'k' || pyToLower d = 'm' || pyToLower d = 'b' then
              ws.length + 1
            else 0
          | [] => 0
      some (p1.1 + p2.1 + p3.1 + 1 + digs.length + frac.1 + p4.1 + suffixLen)
    else none
  | [] => none

/-- `re.finditer` scan for the number pattern: try a match at each
position; on success record the span and continue at its end, otherwise
advance one character.  Structural fuel (one unit per step) replaces the
well-founded recursion; `fuel = cs.length` always suffices because every
step consumes at least one character. -/
def findNumsF : ℕ → List Char → ℕ → List (ℕ × ℕ)
  | 0, _, _ => []
  | _ + 1, [], _ => []
  | fuel + 1, c :: t, i =>
    match matchNum (c :: t) with
    | some n => (i, i + n) :: findNumsF fuel ((c :: t).drop n) (i + n)
    | none => findNumsF fuel t (i + 1)

/-- All number-token spans of a line, in order of discovery. -/
def findNums (cs : List Char) : List (ℕ × ℕ) := findNumsF cs.length cs 0

/-- The characters of a span. -/
def sliceOf (cs : List Char) (m : ℕ × ℕ) : List Char := (cs.drop m.1).take (m.2 - m.1)

/-- The display text of a token (`match.group(0).strip()`). -/
def tokenText (cs : List Char) (m : ℕ × ℕ) : String := String.mk (stripChars (sliceOf cs m))

/-- CHECK 1 of `extract_numbers_smart` (lines 126–130): the token span lies
inside some recorded exclusion occurrence and its digit-only content is in
that rule's digit list. -/
def insideExclusionHit (exms : List (ℕ × ℕ × List String)) (m : ℕ × ℕ)
    (nd : String) : Bool :=
  exms.any fun e => decide (e.1 ≤ m.1) && decide (m.2 ≤ e.2.1) && e.2.2.contains nd

/-- The punctuation set `)]}>.,;:!?"'` of CHECK 2, by character code. -/
def isSpecialPunct (c : Char) : Bool :=
  [41, 93, 125, 62, 46, 44, 59, 58, 33, 63, 34, 39].contains c.toNat

/-- The `re.search(r'[)\]}>.,;:!?"\']\d+$', context)` test of CHECK 2: the
context ends in one or more digits immediately preceded by one of the
special characters. -/
def endsSpecDigits (l : List Char) : Bool :=
  let r := l.reverse
  let ds := r.takeWhile pyIsDigit
  match r.drop ds.length with
  | c :: _ => !ds.isEmpty && isSpecialPunct c
  | [] => false

/-- CHECK 2 of `extract_numbers_smart` (lines 132–156): a token attached to
a word (with the k/m/b/bps lookahead exception) or preceded by special
punctuation that follows digits is excluded. -/
def attachedCheck (cs : List Char) (m : ℕ × ℕ) : Bool :=
  let before := if 0 < m.1 then cs.getD (m.1 - 1) ' ' else ' '
  let after := if m.2 < cs.length then cs.getD m.2 ' ' else ' '
  if pyIsAlpha before || pyIsAlpha after then
    if pyIsAlpha after then
      let suffix := (cs.drop m.2).map pyToLower
      if (match suffix with
          | d :: _ => d = 'k' || d = 'm' || d = 'b'
          | [] => false) then
        (match suffix with
         | _ :: d2 :: _ => pyIsAlpha d2
         | _ => false)
      else true
    else true
  else if isSpecialPunct before then
    endsSpecDigits ((cs.take m.1).drop (m.1 - 5))
  else false

/-- The `is_excluded` classification of one token (CHECK 1, then CHECK 2
when CHECK 1 missed). -/
def tokenExcluded (cs : List Char) (exms : List (ℕ × ℕ × List String))
    (m : ℕ × ℕ) : Bool :=
  if insideExclusionHit exms m (String.mk ((sliceOf cs m).filter pyIsDigit)) then true
  else attachedCheck cs m

/-- The accumulation loop of `extract_numbers_smart` (lines 115–161): each
token is appended to `all_numbers` and to exactly one of
`regular_numbers` / `excluded_numbers`, in discovery order. -/
def extractLoop (cs : List Char) (exms : List (ℕ × ℕ × List String)) :
    List (ℕ × ℕ) → List String × List String × List String
  | [] => ([], [], [])
  | m :: ms =>
    let rest := extractLoop cs exms ms
    let tok := tokenText cs m
    if tokenExcluded cs exms m then (rest.1, tok :: rest.2.1, tok :: rest.2.2)
    else (tok :: rest.1, rest.2.1, tok :: rest.2.2)

/-- `extract_numbers_smart` from `financialsmarttool.py` (lines 79–163):
returns (regular_numbers, excluded_numbers, all_numbers). -/
def extract_numbers_smart (s : String) : List String × List String × List String :=
  extractLoop s.data (exclusionMatches s.data) (findNums s.data)

/-- The line `abc5`. -/
def sAbc5 : String := "abc5"

/-- The line `Common Equity Tier 1 36,594 35,425 3`. -/
def sTier : String := "Common Equity Tier 1 36,594 35,425 3"

/-- The line `Operating income 5,147 4,904 5`. -/
def sOper : String := "Operating income 5,147 4,904 5"

/-- The line `10 0`. -/
def sTenZero : String := "10 0"

/-- The extraction loop is the filter/map characterization: `all` collects
every token, `regular`/`excluded` the complementary filters. -/
lemma extractLoop_eq (cs : List Char) (exms : List (ℕ × ℕ × List String))
    (ms : List (ℕ × ℕ)) :
    extractLoop cs exms ms =
      ((ms.filter fun m => !tokenExcluded cs exms m).map (tokenText cs),
       (ms.filter fun m => tokenExcluded cs exms m).map (tokenText cs),
       ms.map (tokenText cs)) := by
  induction ms with
  | nil => rfl
  | cons m ms ih =>
    unfold extractLoop
    rw [ih]
    by_cases h : tokenExcluded cs exms m = true
    · simp [List.filter_cons, h]
    · simp [List.filter_cons, h]

/-- A list splits by length into a filter and its complement. -/
lemma length_filter_add_not {α : Type} (p : α → Bool) (l : List α) :
    (l.filter p).length + (l.filter fun a => !p a).length = l.length := by
  induction l with
  | nil => rfl
  | cons x xs ih =>
    by_cases h : p x = true <;> simp [List.filter_cons, h] <;> omega

/-- C5 (confirmed): the three sequences of `extract_numbers_smart`
partition the discovered tokens by position — `regular` and `excluded` are
the complementary filters of the token list by the exclusion test (so no
occurrence is in both and their lengths sum to `all`'s, in particular
`len(regular) + len(excluded) ≤ len(all)`), `all` lists every token in
discovery order, and `regular`/`excluded` are order-preserving sublists of
`all`. -/
theorem scanner_partition (s : String) :
    (extract_numbers_smart s).1 =
      ((findNums s.data).filter fun m =>
        !tokenExcluded s.data (exclusionMatches s.data) m).map (tokenText s.data) ∧
      (extract_numbers_smart s).2.1 =
        ((findNums s.data).filter fun m =>
          tokenExcluded s.data (exclusionMatches s.data) m).map (tokenText s.data) ∧
      (extract_numbers_smart s).2.2 = (findNums s.data).map (tokenText s.data) ∧
      (extract_numbers_smart s).1.length + (extract_numbers_smart s).2.1.length =
        (extract_numbers_smart s).2.2.length ∧
      (extract_numbers_smart s).1.length + (extract_numbers_smart s).2.1.length ≤
        (extract_numbers_smart s).2.2.length ∧
      (extract_numbers_smart s).1.Sublist (extract_numbers_smart s).2.2 ∧
      (extract_numbers_smart s).2.1.Sublist (extract_numbers_smart s).2.2 := by
  have he := extractLoop_eq s.data (exclusionMatches s.data) (findNums s.data)
  have h1 : (extract_numbers_smart s).1 =
      ((findNums s.data).filter fun m =>
        !tokenExcluded s.data (exclusionMatches s.data) m).map (tokenText s.data) := by
    rw [extract_numbers_smart, he]
  have h2 : (extract_numbers_smart s).2.1 =
      ((findNums s.data).filter fun m =>
        tokenExcluded s.data (exclusionMatches s.data) m).map (tokenText s.data) := by
    rw [extract_numbers_smart, he]
  have h3 : (extract_numbers_smart s).2.2 = (findNums s.data).map (tokenText s.data) := by
    rw [extract_numbers_smart, he]
  have hlen : (extract_numbers_smart s).1.length + (extract_numbers_smart s).2.1.length =
      (extract_numbers_smart s).2.2.length := by
    rw [h1, h2, h3]
    simp only [List.length_map]
    rw [Nat.add_comm]
    exact length_filter_add_not _ _
  refine ⟨h1, h2, h3, hlen, Nat.le_of_eq hlen, ?_, ?_⟩
  · rw [h1, h3]
    exact List.Sublist.map _ (List.filter_sublist _)
  · rw [h2, h3]
    exact List.Sublist.map _ (List.filter_sublist _)

/-- The claim's exclusion condition, stated declaratively: the token's span
lies entirely within the span of some occurrence of an exclusion phrase in
the lower-cased text, and the token's digit-only content is a member of
that rule's exclusion digit-set. -/
def insideExclusionOcc (cs : List Char) (m : ℕ × ℕ) : Prop :=
  ∃ pr ∈ EXCLUSION_PHRASES, ∃ i,
    leadsIn pr.1.data ((cs.map pyToLower).drop i) = true ∧
    i ≤ m.1 ∧ m.2 ≤ i + pr.1.data.length ∧
    String.mk ((sliceOf cs m).filter pyIsDigit) ∈ pr.2

/-- Every configured exclusion phrase is nonempty. -/
lemma phrases_ne : ∀ pr ∈ EXCLUSION_PHRASES, pr.1.data ≠ [] := by decide

/-- A nonempty pattern never leads the empty list. -/
lemma leadsIn_nil {p : List Char} (h : p ≠ []) : leadsIn p [] = false := by
  cases p with
  | nil => exact absurd rfl h
  | cons c t => rfl

/-- CHECK 1 over the computed occurrence list coincides with the
declarative exclusion condition. -/
lemma insideHit_iff (cs : List Char) (m : ℕ × ℕ) :
    insideExclusionHit (exclusionMatches cs) m
        (String.mk ((sliceOf cs m).filter pyIsDigit)) = true ↔
      insideExclusionOcc cs m := by
  unfold insideExclusionHit exclusionMatches insideExclusionOcc subPositions
  rw [List.any_eq_true]
  constructor
  · rintro ⟨e, he, hcond⟩
    rw [List.mem_bind] at he
    obtain ⟨pr, hpr, he2⟩ := he
    rw [List.mem_map] at he2
    obtain ⟨i, hi, rfl⟩ := he2
    rw [List.mem_filter] at hi
    simp only [Bool.and_eq_true, decide_eq_true_eq, List.elem_iff] at hcond
    exact ⟨pr, hpr, i, hi.2, hcond.1.1, hcond.1.2, hcond.2⟩
  · rintro ⟨pr, hpr, i, hlead, h1, h2, hmem⟩
    have hbound : i < (cs.map pyToLower).length + 1 := by
      by_contra hge
      have hnil : (cs.map pyToLower).drop i = [] := by
        rw [List.drop_eq_nil_iff_le]
        omega
      rw [hnil, leadsIn_nil (phrases_ne pr hpr)] at hlead
      exact Bool.false_ne_true hlead
    refine ⟨(i, i + pr.1.data.length, pr.2), ?_, ?_⟩
    · rw [List.mem_bind]
      exact ⟨pr, hpr,
        List.mem_map.mpr ⟨i, List.mem_filter.mpr ⟨List.mem_range.mpr hbound, hlead⟩, rfl⟩⟩
    · simp only [Bool.and_eq_true, decide_eq_true_eq, List.elem_iff]
      exact ⟨⟨h1, h2⟩, hmem⟩

/-- C1 (amended): a discovered token is classified excluded iff its span
lies inside some exclusion-phrase occurrence with its digit-only content in
that rule's digit-set, OR the attached-to-word / punctuation heuristic
(CHECK 2) fires; every other token is regular. -/
theorem scanner_excluded_iff (s : String) : ∀ m ∈ findNums s.data,
    tokenExcluded s.data (exclusionMatches s.data) m = true ↔
      (insideExclusionOcc s.data m ∨ attachedCheck s.data m = true) := by
  intro m _
  unfold tokenExcluded
  by_cases h : insideExclusionHit (exclusionMatches s.data) m
      (String.mk ((sliceOf s.data m).filter pyIsDigit)) = true
  · simp only [h, if_true, true_iff]
    exact Or.inl ((insideHit_iff s.data m).mp h)
  · rw [Bool.not_eq_true] at h
    simp only [h, Bool.false_eq_true, if_false]
    constructor
    · exact Or.inr
    · rintro (hin | hat)
      · exact absurd ((insideHit_iff s.data m).mpr hin) (by simp [h])
      · exact hat

/-- Witness for C1: the theorem applied to the Tier-1 line — the `1` token
at span (19, 20) of `"Common Equity Tier 1 36,594 35,425 3"` is excluded,
via the `tier 1` occurrence starting at index 14. -/
theorem scanner_excluded_iff_witness :
    tokenExcluded sTier.data (exclusionMatches sTier.data) (19, 20) = true :=
  (scanner_excluded_iff sTier (19, 20) (by decide)).mpr
    (Or.inl ⟨(r"tier 1", [r"1"]), by decide, 14, by decide, by decide, by decide, by decide⟩)

/-- C1 counterexample: in the line `abc5` there is no exclusion-phrase
occurrence at all (`exclusionMatches` is empty and the declarative
condition fails for the sole token), yet the token `5` (span (3, 4)) is
classified excluded — by the attached-to-word heuristic — so exclusion is
not equivalent to the claimed phrase condition. -/
theorem scanner_excluded_not_only_phrases_cex :
    extract_numbers_smart sAbc5 = ([], [r"5"], [r"5"]) ∧
      findNums sAbc5.data = [(3, 4)] ∧
      exclusionMatches sAbc5.data = [] ∧
      ¬ insideExclusionOcc sAbc5.data (3, 4) := by
  refine ⟨by decide, by decide, by decide, ?_⟩
  intro h
  have hhit := (insideHit_iff sAbc5.data (3, 4)).mpr h
  rw [show exclusionMatches sAbc5.data = [] from by decide] at hhit
  simp [insideExclusionHit] at hhit

/-- Python `str.find`: first index at which `sub` occurs, else `none`. -/
def findSubAux (sub : List Char) : List Char → ℕ → Option ℕ
  | [], i => if leadsIn sub [] then some i else none
  | c :: t, i => if leadsIn sub (c :: t) then some i else findSubAux sub t (i + 1)

/-- Python `hay.find(sub)` as an `Option`. -/
def findSub (sub hay : List Char) : Option ℕ := findSubAux sub hay 0

/-- Python `str.replace(old, new, 1)`: replace only the first occurrence
(`old` is nonempty at every call site in the scripts). -/
def replaceFirst (old new : List Char) : List Char → List Char
  | [] => []
  | c :: t =>
    if leadsIn old (c :: t) then new ++ (c :: t).drop old.length
    else c :: replaceFirst old new t

/-- The marker string `__NUM_{i}__`. -/
def markerChars (i : ℕ) : List Char := (r"__NUM_").data ++ (Nat.repr i).data ++ (r"__").data

/-- The substitution loop of `count_consecutive_regular_numbers` (lines
180–185): replace the first occurrence of each regular number, in order,
with its marker. -/
def substituteMarkers : List Char → List (List Char) → ℕ → List Char
  | tt, [], _ => tt
  | tt, n :: rest, i => substituteMarkers (replaceFirst n (markerChars i) tt) rest (i + 1)

/-- The found markers with their positions (lines 189–193): for each of the
`k` markers in index order, its first position in the substituted text, if
present. -/
def markerPositions (tt : List Char) (k : ℕ) : List (ℕ × ℕ) :=
  (List.range k).filterMap fun i => (findSub (markerChars i) tt).map fun p => (p, i)

/-- Stable insertion by position (equal keys keep the original order, as
Python's stable `list.sort`). -/
def insertByPos : ℕ × ℕ → List (ℕ × ℕ) → List (ℕ × ℕ)
  | x, [] => [x]
  | x, y :: ys => if x.1 ≤ y.1 then x :: y :: ys else y :: insertByPos x ys

/-- `marker_positions.sort(key=lambda x: x[0])` (stable). -/
def sortByPos : List (ℕ × ℕ) → List (ℕ × ℕ)
  | [] => []
  | x :: xs => insertByPos x (sortByPos xs)

/-- Matcher for the joined pattern `m1\s*m2\s*...\s*mk` at the head of the
text: each marker literally, with greedy whitespace between (markers start
with `_`, so the greedy whitespace skip is exact). -/
def matchSeqAt (tt : List Char) : List (List Char) → Bool
  | [] => true
  | [m] => leadsIn m tt
  | m :: rest =>
    leadsIn m tt && matchSeqAt ((tt.drop m.length).dropWhile pyIsSpace) rest

/-- `re.search` of the joined marker pattern: try the matcher at every
position. -/
def searchSeq (tt : List Char) (ms : List (List Char)) : Bool :=
  match tt with
  | [] => matchSeqAt [] ms
  | _ :: t => matchSeqAt tt ms || searchSeq t ms

/-- The inner `for end in range(start+1, ...)` loop with its `break` (lines
218–229): keep extending the tested prefix of the marker run while the
joined pattern is found; return the last successful length (1 when even the
two-marker prefix fails).  Structural fuel, one unit per extension;
`l.length` always suffices. -/
def extendFromF (tt : List Char) (l : List (List Char)) : ℕ → ℕ → ℕ
  | 0, k => k - 1
  | fuel + 1, k =>
    if k ≤ l.length then
      if searchSeq tt (l.take k) then extendFromF tt l fuel (k + 1)
      else k - 1
    else k - 1

/-- The outer `for start in range(...)` loop (lines 214–229): the maximum
over all starts of the longest consecutive marker run, at least 1. -/
def maxConsecutive (tt : List Char) (mio : List (List Char)) : ℕ :=
  (List.range mio.length).foldl
    (fun acc start => max acc (extendFromF tt (mio.drop start) (mio.drop start).length 2)) 1

/-- `count_consecutive_regular_numbers` from `financialsmarttool.py`
(lines 165–231): re-extract the regular numbers; with ≤ 1 of them return
the count; otherwise substitute each with a unique marker (first
occurrence, in order), locate the markers, sort by position, and return the
full count if all markers appear whitespace-adjacent, else the longest
whitespace-adjacent run. -/
def count_consecutive_regular_numbers (s : String) : ℕ :=
  let regular := (extract_numbers_smart s).1
  if regular.length ≤ 1 then regular.length
  else
    let tt := substituteMarkers s.data (regular.map String.data) 0
    let mp := markerPositions tt regular.length
    if mp.length ≤ 1 then mp.length
    else
      let mio := (sortByPos mp).map fun p => markerChars p.2
      if searchSeq tt mio then mio.length
      else maxConsecutive tt mio

/-- C2 (code bug, failing input `"10 0"`): the regular numbers of
`"10 0"` are `["10", "0"]` and they appear in the text as one
whitespace-separated run (the text is literally `"10" ++ " " ++ "0"`), so
by the claim the consecutive count should be 2; but
`count_consecutive_regular_numbers` returns 1 — replacing the first
occurrence of `"0"` hits the `0` inside the already-inserted marker
`__NUM_0__`, destroying it, so only one marker survives.  On the spec's own
example `"Operating income 5,147 4,904 5"` the count is 3 as claimed. -/
theorem count_consecutive_aliasing_bug :
    count_consecutive_regular_numbers sTenZero = 1 ∧
      (extract_numbers_smart sTenZero).1 = [r"10", r"0"] ∧
      sTenZero.data = (r"10").data ++ [' '] ++ (r"0").data ∧
      count_consecutive_regular_numbers sOper = 3 ∧
      (extract_numbers_smart sOper).1 = [r"5,147", r"4,904", r"5"] :=
  ⟨by decide, by decide, by decide, by decide, by decide⟩
